import Mathlib

/-!
Shallow embedding of the iskandar-community-backend request handlers that the
claims C1 to C10 are about, together with the theorems settling those claims.

Conventions of the embedding:
* timestamps (`datetime.utcnow()` values) are modelled as `Int` numbers of
  seconds; `timedelta(minutes=m)` is `m * 60` seconds and
  `timedelta(hours=h)` is `h * 3600` seconds;
* MongoDB documents are Lean structures, a collection is a `List` of
  documents in insertion order; `find_one` is `List.find?`, `insert_one`
  appends, `delete_one` removes the first matching document, `delete_many`
  and `find` filter;
* a missing or null BSON field is `Option.none`;
* `HTTPException` is the `HErr` structure and a fallible handler returns
  `Except HErr response`; handlers that may write also return the new
  database state;
* FastAPI dependencies (`get_current_active_user`, `get_current_admin_user`)
  run before the handler body; handlers are modelled from their body on, so
  the `TokenData` argument is the already-authenticated caller;
* Python truthiness tests on optional strings (`if comment_data.parent_id:`)
  are `pyTruthy`, which is false exactly on `None` and the empty string.
-/

namespace Iskandar

/-- HTTPException: a status code and a detail message. -/
structure HErr where
  status_code : Nat
  detail : String
deriving DecidableEq, Repr

/-- Python truthiness of an optional string: `None` and `""` are falsy. -/
def pyTruthy : Option String → Bool
  | none => false
  | some s => s ≠ ""

/-- A hexadecimal digit, as accepted by `bson.ObjectId.is_valid`. -/
def isHexDigit (c : Char) : Bool :=
  c.isDigit || ('a' ≤ c && c ≤ 'f') || ('A' ≤ c && c ≤ 'F')

/-- bson.ObjectId.is_valid on a string: exactly 24 hexadecimal characters. -/
def isValidObjectId (s : String) : Bool :=
  s.length = 24 && s.toList.all isHexDigit

/-! ## Document models (app/models) -/

/-- email_preferences sub-document of a user (models/user.py). -/
structure EmailPreferences where
  new_posts : Bool
  admin_notifications : Bool
  comment_replies : Bool
  weekly_digest : Bool
deriving DecidableEq, Repr

/-- A user document in the `users` collection (models/user.py UserModel). -/
structure UserDoc where
  uid : String
  email : String
  name : String
  password_hash : String
  role : String
  is_active : Bool
  avatar : Option String
  phone : Option String
  telegram_id : Option String
  last_seen : Option Int
  email_preferences : Option EmailPreferences
  created_at : Int
  updated_at : Int
deriving DecidableEq, Repr

/-- A post document in the `posts` collection (models/post.py PostModel).
`is_published` is `none` on legacy documents that lack the field. -/
structure PostDoc where
  pid : String
  title : String
  content : String
  author_name : String
  category_id : Option String
  is_published : Option Bool
  published_at : Option Int
  pin_priority : Int
  created_at : Int
  updated_at : Int
deriving DecidableEq, Repr

/-- A comment document in the `comments` collection (models/comment.py). -/
structure CommentDoc where
  cid : String
  post_id : String
  author_name : String
  content : String
  created_at : Int
  parent_id : Option String
  author_email : Option String
deriving DecidableEq, Repr

/-- A category document in the `categories` collection. -/
structure CategoryDoc where
  catId : String
  name : String
  is_active : Bool
deriving DecidableEq, Repr

/-- The document database: one list per collection used by the claims. -/
structure DBState where
  posts : List PostDoc
  comments : List CommentDoc
  users : List UserDoc
  categories : List CategoryDoc
deriving DecidableEq, Repr

/-- TokenData: the authenticated caller, as decoded from the JWT
(models/user.py TokenData). -/
structure TokenData where
  email : String
  user_id : String
  name : String
  role : String
  is_active : Bool
deriving DecidableEq, Repr

/-! ## Presence (app/utils/presence.py) -/

/-- ONLINE_THRESHOLD_MINUTES in app/utils/presence.py. -/
def ONLINE_THRESHOLD_MINUTES : Int := 5

/-- is_user_online: a user is online when `last_seen` is truthy (a datetime is
always truthy, so: present) and strictly greater than `utcnow minus 5
minutes`. -/
def is_user_online (now : Int) (last_seen : Option Int) : Bool :=
  match last_seen with
  | none => false
  | some t => decide (t > now - ONLINE_THRESHOLD_MINUTES * 60)

/-- cleanup_offline_users (presence.py lines 56-74).

The Python filter is the dict literal
`{"last_seen": {"$lt": threshold}, "last_seen": {"$ne": None}}`.
The key `"last_seen"` is repeated, so by Python dict-literal semantics the
second entry overwrites the first and the filter that reaches MongoDB is
`{"last_seen": {"$ne": None}}`: every user whose `last_seen` field is present
and non-null matches, whatever its value. The update unsets `last_seen` on
every matched user and `modified_count` counts them. -/
def cleanup_offline_users (now : Int) (users : List UserDoc) : List UserDoc × Nat :=
  let _threshold := now - ONLINE_THRESHOLD_MINUTES * 60
  (users.map (fun u => if u.last_seen.isSome then { u with last_seen := none } else u),
   (users.filter (fun u => u.last_seen.isSome)).length)

/-! ## Chat notification debounce (app/main.py)

`last_chat_notification` is a module-level global, initially `None`.  Every
`send_message` socket event calls `check_and_send_chat_notification`, whose
decision logic is `chatNotifyStep`: notify when the global is `None` (first
message ever) or when strictly more than 2 hours passed since the global was
last set; when it decides to notify it sets the global to the current time
(this happens whether or not any admin has Telegram configured, so the
decision level is the faithful place to model the debounce). -/

/-- One `check_and_send_chat_notification` call: returns the
`should_notify` decision and the new value of `last_chat_notification`. -/
def chatNotifyStep (last_chat_notification : Option Int) (current_time : Int) :
    Bool × Option Int :=
  let should_notify : Bool :=
    match last_chat_notification with
    | none => true
    | some t => decide (current_time - t > 2 * 3600)
  if should_notify then (true, some current_time)
  else (false, last_chat_notification)

/-- Run a sequence of send_message events (given by their timestamps) through
the debounce; returns the list of notify decisions and the final value of
`last_chat_notification`. -/
def chatNotifyRun (st : Option Int) : List Int → List Bool × Option Int
  | [] => ([], st)
  | t :: ts =>
    let p := chatNotifyStep st t
    let q := chatNotifyRun p.2 ts
    (p.1 :: q.1, q.2)

/-- Modelled from the amended claim's words: the timestamp of the most recent
message that triggered an admin notification (and the initial register value
when no message in the list triggered one). -/
def specLastTriggerTime (st : Option Int) (ts : List Int) : Option Int :=
  match ((ts.zip (chatNotifyRun st ts).1).filter (fun p => p.2)).getLast? with
  | some p => some p.1
  | none => st

/-! ## Request bodies -/

/-- CommentCreate (models/comment.py). -/
structure CommentCreate where
  author_name : String
  content : String
  parent_id : Option String
  author_email : Option String
deriving DecidableEq, Repr

/-- CommentUpdate (models/comment.py): only the content can change. -/
structure CommentUpdate where
  content : String
deriving DecidableEq, Repr

/-- PostCreate (models/post.py). -/
structure PostCreate where
  title : String
  content : String
  author_name : String
  category_id : Option String
  is_published : Bool
  pin_priority : Int
deriving DecidableEq, Repr

/-- UserCreate (models/user.py). Pydantic guarantees `email` is a valid
(hence non-empty) address and `name` has at least one character. -/
structure UserCreate where
  email : String
  name : String
  password : String
  role : String
  avatar : Option String
  phone : Option String
deriving DecidableEq, Repr

/-- UserUpdate (models/user.py): every field optional; pydantic guarantees a
present `email` is a valid (non-empty) address and a present `name` is
non-empty. -/
structure UserUpdate where
  name : Option String
  email : Option String
  role : Option String
  is_active : Option Bool
  avatar : Option String
  phone : Option String
  telegram_id : Option String
  last_seen : Option Int
deriving DecidableEq, Repr

/-! ## Response models -/

/-- PostResponse (models/post.py). -/
structure PostResponse where
  id : String
  title : String
  content : String
  author_name : String
  category_id : Option String
  category_name : Option String
  is_published : Bool
  published_at : Option Int
  pin_priority : Int
  created_at : Int
  updated_at : Int
deriving DecidableEq, Repr

/-- CommentResponse with its nested `replies` list (models/comment.py); the
scalar fields are those of the comment document. -/
inductive CommentTree where
  | node (comment : CommentDoc) (replies : List CommentTree)

/-- UserResponse (models/user.py), restricted to the document fields. -/
structure UserResponse where
  id : String
  email : String
  name : String
  role : String
  is_active : Bool
  avatar : Option String
  phone : Option String
  last_seen : Option Int
deriving DecidableEq, Repr

/-! ## Generic MongoDB write helpers -/

/-- delete_one on the posts collection: remove the first document whose
`_id` matches. -/
def deleteOnePost (ps : List PostDoc) (oid : String) : List PostDoc :=
  match ps with
  | [] => []
  | p :: rest => if p.pid = oid then rest else p :: deleteOnePost rest oid

/-- delete_one on the comments collection. -/
def deleteOneComment (cs : List CommentDoc) (oid : String) : List CommentDoc :=
  match cs with
  | [] => []
  | c :: rest => if c.cid = oid then rest else c :: deleteOneComment rest oid

/-- update_one with `$set {content}` on the comments collection: rewrite the
first document whose `_id` matches. -/
def setContentFirstComment (cs : List CommentDoc) (oid : String) (content : String) :
    List CommentDoc :=
  match cs with
  | [] => []
  | c :: rest =>
    if c.cid = oid then { c with content := content } :: rest
    else c :: setContentFirstComment rest oid content

/-- Apply a UserUpdate's non-None fields to a user document, as
`$set update_data` does (`updated_at` is always set by the pydantic
default factory). -/
def applyUserUpdate (u : UserDoc) (d : UserUpdate) (now : Int) : UserDoc :=
  { u with
    name := d.name.getD u.name
    email := d.email.getD u.email
    role := d.role.getD u.role
    is_active := d.is_active.getD u.is_active
    avatar := match d.avatar with | some a => some a | none => u.avatar
    phone := match d.phone with | some p => some p | none => u.phone
    telegram_id := match d.telegram_id with | some t => some t | none => u.telegram_id
    last_seen := match d.last_seen with | some t => some t | none => u.last_seen
    updated_at := now }

/-- update_one with `$set update_data` on the users collection. -/
def updateFirstUser (us : List UserDoc) (oid : String) (d : UserUpdate) (now : Int) :
    List UserDoc :=
  match us with
  | [] => []
  | u :: rest =>
    if u.uid = oid then applyUserUpdate u d now :: rest
    else u :: updateFirstUser rest oid d now

/-! ## Comments router (app/routers/comments.py) -/

/-- Ordering used by `.sort("created_at", 1)` on the comments query. -/
def createdLe (a b : CommentDoc) : Prop := a.created_at ≤ b.created_at

instance : DecidableRel createdLe := fun a b => by
  unfold createdLe; exact inferInstance

instance : IsTotal CommentDoc createdLe :=
  ⟨fun a b => le_total a.created_at b.created_at⟩

instance : IsTrans CommentDoc createdLe :=
  ⟨fun _ _ _ h h' => le_trans h h'⟩

/-- The comments fetched for a post, in ascending created_at order. -/
def fetchComments (s : DBState) (post_id : String) : List CommentDoc :=
  List.insertionSort createdLe (s.comments.filter (fun c => c.post_id = post_id))

/-- The second pass of get_comments_for_post appends, to the `replies` list
of the dict entry for id `p`, exactly the comments whose `parent_id` is
truthy and equal to `p`, in list order. -/
def childrenOf (cs : List CommentDoc) (p : String) : List CommentDoc :=
  cs.filter (fun c => pyTruthy c.parent_id && c.parent_id == some p)

/-- Read out the object graph that the two passes of get_comments_for_post
build: the `CommentResponse` for comment `c` carries, as replies, the
responses of the comments whose parent_id is `c.cid`.  `fuel` bounds the
recursion depth; from a root, a descendant chain never repeats a comment,
so `fuel = cs.length` reproduces the full serialized tree. -/
def buildTree (cs : List CommentDoc) : Nat → CommentDoc → CommentTree
  | 0, c => .node c []
  | fuel + 1, c => .node c ((childrenOf cs c.cid).map (buildTree cs fuel))

/-- The value returned by get_comments_for_post on the fetched list: the
root comments (falsy parent_id), each carrying its nested replies. -/
def assembleForest (cs : List CommentDoc) : List CommentTree :=
  (cs.filter (fun c => !(pyTruthy c.parent_id))).map (buildTree cs cs.length)

/-- get_comments_for_post (comments.py lines 17-57). -/
def get_comments_for_post (s : DBState) (post_id : String) :
    Except HErr (List CommentTree) :=
  if !(isValidObjectId post_id) then
    .error ⟨400, "Invalid post ID format"⟩
  else
    .ok (assembleForest (fetchComments s post_id))

/-- create_comment (comments.py lines 59-122); `now` is `datetime.utcnow()`
and `newId` the ObjectId generated by insert_one. -/
def create_comment (s : DBState) (post_id : String) (comment_data : CommentCreate)
    (now : Int) (newId : String) : Except HErr CommentDoc × DBState :=
  if !(isValidObjectId post_id) then
    (.error ⟨400, "Invalid post ID format"⟩, s)
  else
    match s.posts.find? (fun p => p.pid = post_id) with
    | none => (.error ⟨404, "Post not found"⟩, s)
    | some _post =>
      let insert : Except HErr CommentDoc × DBState :=
        let doc : CommentDoc :=
          { cid := newId
            post_id := post_id
            author_name := comment_data.author_name
            content := comment_data.content
            created_at := now
            parent_id := comment_data.parent_id
            author_email := comment_data.author_email }
        (.ok doc, { s with comments := s.comments ++ [doc] })
      if pyTruthy comment_data.parent_id then
        match comment_data.parent_id with
        | none => insert
        | some parent =>
          if !(isValidObjectId parent) then
            (.error ⟨400, "Invalid parent comment ID format"⟩, s)
          else
            match s.comments.find? (fun c => c.cid = parent) with
            | none => (.error ⟨404, "Parent comment not found"⟩, s)
            | some parent_comment =>
              if parent_comment.post_id ≠ post_id then
                (.error ⟨400, "Parent comment does not belong to this post"⟩, s)
              else insert
      else insert

/-- update_comment (comments.py lines 124-162). -/
def update_comment (s : DBState) (comment_id : String) (comment_data : CommentUpdate)
    (current_user : TokenData) : Except HErr CommentDoc × DBState :=
  if !(isValidObjectId comment_id) then
    (.error ⟨400, "Invalid comment ID format"⟩, s)
  else
    match s.comments.find? (fun c => c.cid = comment_id) with
    | none => (.error ⟨404, "Comment not found"⟩, s)
    | some comment =>
      if current_user.role ≠ "admin" ∧ comment.author_name ≠ current_user.name then
        (.error ⟨403, "You can only edit your own comments"⟩, s)
      else
        let comments' := setContentFirstComment s.comments comment_id comment_data.content
        let s' := { s with comments := comments' }
        match comments'.find? (fun c => c.cid = comment_id) with
        | none => (.error ⟨404, "Comment not found"⟩, s')
        | some updated => (.ok updated, s')

/-- delete_comment (comments.py lines 164-187). -/
def delete_comment (s : DBState) (comment_id : String) (current_user : TokenData) :
    Except HErr Unit × DBState :=
  if !(isValidObjectId comment_id) then
    (.error ⟨400, "Invalid comment ID format"⟩, s)
  else
    match s.comments.find? (fun c => c.cid = comment_id) with
    | none => (.error ⟨404, "Comment not found"⟩, s)
    | some _comment =>
      if current_user.role ≠ "admin" ∧ _comment.author_name ≠ current_user.name then
        (.error ⟨403, "You can only delete your own comments"⟩, s)
      else
        (.ok (), { s with comments := deleteOneComment s.comments comment_id })

/-! ## Posts router (app/routers/posts.py) -/

/-- populate_category_name (posts.py lines 13-24). -/
def populate_category_name (s : DBState) (p : PostDoc) : Option String :=
  if pyTruthy p.category_id then
    match s.categories.find? (fun c => some c.catId = p.category_id) with
    | some category => some category.name
    | none => some "Unknown Category"
  else none

/-- Build the PostResponse for a stored post document (conversion plus
populate_category_name, as done by every posts handler). -/
def mkPostResponse (s : DBState) (p : PostDoc) : PostResponse :=
  { id := p.pid
    title := p.title
    content := p.content
    author_name := p.author_name
    category_id := p.category_id
    category_name := populate_category_name s p
    is_published := p.is_published.getD false
    published_at := p.published_at
    pin_priority := p.pin_priority
    created_at := p.created_at
    updated_at := p.updated_at }

/-- Ordering used by `.sort("published_at", -1)`: descending, null last
(null sorts lowest in MongoDB). -/
def pubDescLe (a b : PostDoc) : Prop :=
  match a.published_at, b.published_at with
  | _, none => True
  | none, some _ => False
  | some x, some y => y ≤ x

instance : DecidableRel pubDescLe := fun a b => by
  unfold pubDescLe
  cases a.published_at <;> cases b.published_at <;> exact inferInstance

instance : IsTotal PostDoc pubDescLe := by
  constructor
  intro a b
  unfold pubDescLe
  cases a.published_at <;> cases b.published_at <;> simp
  exact le_total _ _

instance : IsTrans PostDoc pubDescLe := by
  constructor
  intro a b c hab hbc
  unfold pubDescLe at hab hbc ⊢
  cases ha : a.published_at <;> cases hb : b.published_at <;>
    cases hc : c.published_at <;> simp_all
  omega

/-- get_all_posts (posts.py lines 26-48): only published posts, optionally
filtered by category, sorted by published_at descending. -/
def get_all_posts (s : DBState) (category_id : Option String) :
    Except HErr (List PostResponse) :=
  if pyTruthy category_id then
    match category_id with
    | none => .ok []
    | some cat =>
      if !(isValidObjectId cat) then
        .error ⟨400, "Invalid category ID format"⟩
      else
        .ok ((List.insertionSort pubDescLe
          (s.posts.filter (fun p => p.is_published == some true &&
            p.category_id == some cat))).map (mkPostResponse s))
  else
    .ok ((List.insertionSort pubDescLe
      (s.posts.filter (fun p => p.is_published == some true))).map (mkPostResponse s))

/-- get_post (posts.py lines 50-73); the caller has already passed
get_current_active_user. -/
def get_post (s : DBState) (post_id : String) (current_user : TokenData) :
    Except HErr PostResponse :=
  if !(isValidObjectId post_id) then
    .error ⟨400, "Invalid post ID format"⟩
  else
    match s.posts.find? (fun p => p.pid = post_id) with
    | none => .error ⟨404, "Post not found"⟩
    | some post =>
      if post.is_published.getD false = false then
        if current_user.role ≠ "admin" ∧ post.author_name ≠ current_user.name then
          .error ⟨404, "Post not found"⟩
        else .ok (mkPostResponse s post)
      else .ok (mkPostResponse s post)

/-- The document that create_post inserts (post_dict after the timestamp
and published_at handling). -/
def createdPostDoc (post_data : PostCreate) (now : Int) (newId : String) : PostDoc :=
  { pid := newId
    title := post_data.title
    content := post_data.content
    author_name := post_data.author_name
    category_id := post_data.category_id
    is_published := some post_data.is_published
    published_at := if post_data.is_published then some now else none
    pin_priority := post_data.pin_priority
    created_at := now
    updated_at := now }

/-- The insert_one / find_one / response tail of create_post. -/
def insertPost (s : DBState) (post_data : PostCreate) (now : Int) (newId : String) :
    Except HErr PostResponse × DBState :=
  let doc := createdPostDoc post_data now newId
  let s' := { s with posts := s.posts ++ [doc] }
  match s'.posts.find? (fun p => p.pid = newId) with
  | none => (.error ⟨404, "Post not found"⟩, s')
  | some created => (.ok (mkPostResponse s' created), s')

/-- create_post (posts.py lines 75-117); `now` is `datetime.utcnow()` and
`newId` the ObjectId generated by insert_one (MongoDB's unique `_id` index
makes insert_one fail on a duplicate, so callers assume `newId` fresh). -/
def create_post (s : DBState) (post_data : PostCreate) (now : Int) (newId : String) :
    Except HErr PostResponse × DBState :=
  if pyTruthy post_data.category_id then
    match post_data.category_id with
    | none => insertPost s post_data now newId
    | some cat =>
      if !(isValidObjectId cat) then
        (.error ⟨400, "Invalid category ID format"⟩, s)
      else
        match s.categories.find? (fun c => c.catId = cat && c.is_active) with
        | none => (.error ⟨400, "Category not found or inactive"⟩, s)
        | some _ => insertPost s post_data now newId
  else insertPost s post_data now newId

/-- delete_post (posts.py lines 169-195); the caller has already passed
get_current_active_user. -/
def delete_post (s : DBState) (post_id : String) (current_user : TokenData) :
    Except HErr Unit × DBState :=
  if !(isValidObjectId post_id) then
    (.error ⟨400, "Invalid post ID format"⟩, s)
  else
    match s.posts.find? (fun p => p.pid = post_id) with
    | none => (.error ⟨404, "Post not found"⟩, s)
    | some post =>
      if current_user.role ≠ "admin" ∧ post.author_name ≠ current_user.name then
        (.error ⟨403, "You can only delete your own posts"⟩, s)
      else
        (.ok (),
         { s with
           posts := deleteOnePost s.posts post_id
           comments := s.comments.filter (fun c => c.post_id ≠ post_id) })

/-! ## Auth router (app/routers/auth.py)

These endpoints run behind `Depends(get_current_admin_user)`; the models
start at the handler body, after the dependency admitted the caller. -/

/-- create_user (auth.py lines 157-202); `now` is `datetime.utcnow()`,
`newId` the generated ObjectId and `pwHash` the bcrypt hash. -/
def create_user (s : DBState) (user_data : UserCreate) (now : Int) (newId : String)
    (pwHash : String) : Except HErr UserDoc × DBState :=
  match s.users.find? (fun u => u.email = user_data.email) with
  | some _ => (.error ⟨400, "Email already registered"⟩, s)
  | none =>
    match s.users.find? (fun u => u.name = user_data.name) with
    | some _ =>
      (.error ⟨400, "Name already taken. Please choose a different name."⟩, s)
    | none =>
      let doc : UserDoc :=
        { uid := newId
          email := user_data.email
          name := user_data.name
          password_hash := pwHash
          role := user_data.role
          is_active := true
          avatar := user_data.avatar
          phone := user_data.phone
          telegram_id := none
          last_seen := none
          email_preferences := some ⟨true, true, true, false⟩
          created_at := now
          updated_at := now }
      (.ok doc, { s with users := s.users ++ [doc] })

/-- get_user (auth.py lines 233-263). -/
def get_user (s : DBState) (user_id : String) : Except HErr UserResponse :=
  if !(isValidObjectId user_id) then
    .error ⟨400, "Invalid user ID format"⟩
  else
    match s.users.find? (fun u => u.uid = user_id) with
    | none => .error ⟨404, "User not found"⟩
    | some u =>
      .ok { id := u.uid, email := u.email, name := u.name, role := u.role,
            is_active := u.is_active, avatar := u.avatar, phone := u.phone,
            last_seen := u.last_seen }

/-- update_user (auth.py lines 263-312). -/
def update_user (s : DBState) (user_id : String) (user_data : UserUpdate)
    (now : Int) : Except HErr UserDoc × DBState :=
  if !(isValidObjectId user_id) then
    (.error ⟨400, "Invalid user ID format"⟩, s)
  else
    let emailDup : Bool :=
      pyTruthy user_data.email &&
        (s.users.find? (fun u => some u.email == user_data.email && u.uid ≠ user_id)).isSome
    let nameDup : Bool :=
      pyTruthy user_data.name &&
        (s.users.find? (fun u => some u.name == user_data.name && u.uid ≠ user_id)).isSome
    if emailDup then
      (.error ⟨400, "Email already registered"⟩, s)
    else if nameDup then
      (.error ⟨400, "Name already taken. Please choose a different name."⟩, s)
    else
      match s.users.find? (fun u => u.uid = user_id) with
      | none => (.error ⟨404, "User not found"⟩, s)
      | some _ =>
        let users' := updateFirstUser s.users user_id user_data now
        let s' := { s with users := users' }
        match users'.find? (fun u => u.uid = user_id) with
        | none => (.error ⟨404, "User not found"⟩, s')
        | some updated => (.ok updated, s')

/-! ## Sample data used by witnesses -/

/-- A valid 24-character hexadecimal ObjectId. -/
def oidA : String := "aaaaaaaaaaaaaaaaaaaaaaaa"

/-- A valid 24-character hexadecimal ObjectId. -/
def oidB : String := "bbbbbbbbbbbbbbbbbbbbbbbb"

/-- A valid 24-character hexadecimal ObjectId. -/
def oidC : String := "cccccccccccccccccccccccc"

/-- A valid 24-character hexadecimal ObjectId. -/
def oidD : String := "dddddddddddddddddddddddd"

/-! ## C3: is_user_online -/

/-- C3: for every value of last_seen, is_user_online returns True iff
last_seen is present and lies strictly within the 5-minute window before the
current time (last_seen > now - 5 minutes); a None last_seen yields False. -/
theorem C3_is_user_online_iff :
    ∀ (now : Int) (last_seen : Option Int),
      (is_user_online now last_seen = true ↔
        ∃ t, last_seen = some t ∧ now - 5 * 60 < t) ∧
      is_user_online now none = false := by
  intro now ls
  refine ⟨?_, rfl⟩
  cases ls with
  | none => simp [is_user_online]
  | some t => simp [is_user_online, ONLINE_THRESHOLD_MINUTES]

/-! ## C9: cleanup_offline_users -/

/-- C9 (code bug): the claim says cleanup_offline_users unsets last_seen only
for users strictly older than the 5-minute threshold and leaves online users
untouched, which is also what the function's docstring and inline comments
say.  The code, however, builds its filter as a Python dict literal that
repeats the key "last_seen", so the `$lt threshold` clause is discarded and
the effective filter matches every user with a non-null last_seen.  At the
concrete input below, a user last seen at the current instant (hence online
by is_user_online) has their last_seen unset and is counted as modified. -/
theorem C9_cleanup_unsets_online_user :
    is_user_online 1000 (some 1000) = true ∧
    cleanup_offline_users 1000
        [{ uid := "u1", email := "a@b.c", name := "alice", password_hash := "h",
           role := "normal", is_active := true, avatar := none, phone := none,
           telegram_id := none, last_seen := some 1000, email_preferences := none,
           created_at := 0, updated_at := 0 }] =
      ([{ uid := "u1", email := "a@b.c", name := "alice", password_hash := "h",
          role := "normal", is_active := true, avatar := none, phone := none,
          telegram_id := none, last_seen := none, email_preferences := none,
          created_at := 0, updated_at := 0 }], 1) := by
  exact ⟨by decide, rfl⟩

/-! ## C8: malformed ObjectId path parameters -/

/-- C8: for the endpoints taking a document identifier path parameter
(posts: get_post, comments: create_comment, users: get_user), a syntactically
malformed identifier yields HTTP 400, the response does not depend on the
database state (the database is not queried at that identifier), and the
state is returned unmodified. -/
theorem C8_invalid_id_yields_400 :
    ∀ pid : String, isValidObjectId pid = false →
      (∀ (s : DBState) (u : TokenData),
        get_post s pid u = .error ⟨400, "Invalid post ID format"⟩) ∧
      (∀ (s : DBState) (d : CommentCreate) (now : Int) (nid : String),
        create_comment s pid d now nid = (.error ⟨400, "Invalid post ID format"⟩, s)) ∧
      (∀ s : DBState, get_user s pid = .error ⟨400, "Invalid user ID format"⟩) := by
  intro pid h
  refine ⟨?_, ?_, ?_⟩ <;> intros <;> simp [get_post, create_comment, get_user, h]

/-- Witness for C8 at the concrete malformed identifier "zzz". -/
theorem C8_witness :
    isValidObjectId "zzz" = false ∧
    get_post ⟨[], [], [], []⟩ "zzz" ⟨"e", "i", "n", "normal", true⟩ =
      .error ⟨400, "Invalid post ID format"⟩ :=
  ⟨by decide,
   (C8_invalid_id_yields_400 "zzz" (by decide)).1 ⟨[], [], [], []⟩
     ⟨"e", "i", "n", "normal", true⟩⟩

/-! ## C1: chat notification debounce -/

/-- C1 (counterexample): with send_message events at times 0, 3600 and 9000
seconds, the third message triggers an admin notification even though the
last chat activity before it (the message at 3600) is only 5400 seconds
(≤ 2 hours) old: the code debounces on the time of the last notification
(0), not on the time of the last chat activity (3600).  This refutes the
claim that no admin notification is sent when the last chat activity is 2
hours old or less. -/
theorem C1_counterexample :
    (chatNotifyRun none [0, 3600, 9000]).1 = [true, false, true] ∧
    (9000 : Int) - 3600 ≤ 2 * 3600 := by
  exact ⟨rfl, by decide⟩

/-! ## C4: delete_post removes the post and its comments -/

/-- After delete_one on a collection whose ids are pairwise distinct, no
remaining document carries the deleted id. -/
theorem deleteOnePost_pid_ne (ps : List PostDoc) (oid : String)
    (hnd : (ps.map PostDoc.pid).Nodup) :
    ∀ p ∈ deleteOnePost ps oid, p.pid ≠ oid := by
  induction ps with
  | nil => intro p hp; simp [deleteOnePost] at hp
  | cons q rest ih =>
    simp only [List.map_cons, List.nodup_cons] at hnd
    intro p hp
    unfold deleteOnePost at hp
    by_cases hq : q.pid = oid
    · rw [if_pos hq] at hp
      intro hpo
      apply hnd.1
      rw [hq, ← hpo]
      exact List.mem_map_of_mem PostDoc.pid hp
    · rw [if_neg hq] at hp
      rcases List.mem_cons.mp hp with h | h
      · exact h ▸ hq
      · exact ih hnd.2 p h

/-- C4: when delete_post succeeds (the caller passed the author/admin
check), the post is absent from the posts collection and every comment
whose post_id equals the deleted id is absent from the comments
collection.  The Nodup hypothesis is MongoDB's unique `_id` index. -/
theorem C4_delete_post_removes_post_and_comments :
    ∀ (s : DBState) (pid : String) (u : TokenData) (s' : DBState),
      (s.posts.map PostDoc.pid).Nodup →
      delete_post s pid u = (.ok (), s') →
      (∀ p ∈ s'.posts, p.pid ≠ pid) ∧ (∀ c ∈ s'.comments, c.post_id ≠ pid) := by
  intro s pid u s' hnd h
  unfold delete_post at h
  split at h
  · simp at h
  · split at h
    · simp at h
    · split at h
      · simp at h
      · rw [Prod.mk.injEq] at h
        rw [← h.2]
        constructor
        · exact deleteOnePost_pid_ne s.posts pid hnd
        · intro c hc
          have := (List.mem_filter.mp hc).2
          simpa using this

/-- Sample post for the C4/C5 witnesses. -/
def c4post : PostDoc :=
  { pid := oidA, title := "t", content := "x", author_name := "bob",
    category_id := none, is_published := some true, published_at := some 5,
    pin_priority := 0, created_at := 0, updated_at := 0 }

/-- Sample comment for the C4/C5 witnesses. -/
def c4comment : CommentDoc :=
  { cid := oidB, post_id := oidA, author_name := "bob", content := "hi",
    created_at := 0, parent_id := none, author_email := none }

/-- Sample database for the C4/C5 witnesses. -/
def c4s : DBState := ⟨[c4post], [c4comment], [], []⟩

/-- Sample admin caller. -/
def c4admin : TokenData := ⟨"a@b.c", "u0", "root", "admin", true⟩

/-- Witness for C4: an admin deletes the only post; afterwards neither the
post nor its comment remains. -/
theorem C4_witness :
    ((c4s.posts.map PostDoc.pid).Nodup ∧
      delete_post c4s oidA c4admin = (.ok (), ⟨[], [], [], []⟩)) ∧
    ((∀ p ∈ (⟨[], [], [], []⟩ : DBState).posts, p.pid ≠ oidA) ∧
      (∀ c ∈ (⟨[], [], [], []⟩ : DBState).comments, c.post_id ≠ oidA)) :=
  ⟨⟨by decide, by rfl⟩,
   C4_delete_post_removes_post_and_comments c4s oidA c4admin ⟨[], [], [], []⟩
     (by decide) (by rfl)⟩

/-! ## C5: non-owner non-admin gets 403 and the state is unchanged -/

/-- C5: for a caller whose role is not admin and whose name differs from the
target's author_name, update_comment, delete_comment and delete_post fail
with 403 Forbidden and return the database state unchanged. -/
theorem C5_forbidden_leaves_state_unchanged :
    ∀ (s : DBState) (u : TokenData), u.role ≠ "admin" →
      (∀ (cid : String) (d : CommentUpdate) (c : CommentDoc),
        isValidObjectId cid = true →
        s.comments.find? (fun x => x.cid = cid) = some c →
        c.author_name ≠ u.name →
        update_comment s cid d u =
          (.error ⟨403, "You can only edit your own comments"⟩, s)) ∧
      (∀ (cid : String) (c : CommentDoc),
        isValidObjectId cid = true →
        s.comments.find? (fun x => x.cid = cid) = some c →
        c.author_name ≠ u.name →
        delete_comment s cid u =
          (.error ⟨403, "You can only delete your own comments"⟩, s)) ∧
      (∀ (pid : String) (p : PostDoc),
        isValidObjectId pid = true →
        s.posts.find? (fun x => x.pid = pid) = some p →
        p.author_name ≠ u.name →
        delete_post s pid u =
          (.error ⟨403, "You can only delete your own posts"⟩, s)) := by
  intro s u hrole
  refine ⟨?_, ?_, ?_⟩
  · intro cid d c hv hf hname
    simp [update_comment, hv, hf, hrole, hname]
  · intro cid c hv hf hname
    simp [delete_comment, hv, hf, hrole, hname]
  · intro pid p hv hf hname
    simp [delete_post, hv, hf, hrole, hname]

/-- Sample non-admin, non-owner caller. -/
def c5u : TokenData := ⟨"c@x.y", "u9", "carol", "normal", true⟩

/-- Witness for C5: carol (role normal) tries to delete bob's comment and
gets 403 with the state unchanged. -/
theorem C5_witness :
    (c5u.role ≠ "admin" ∧ isValidObjectId oidB = true ∧
      c4s.comments.find? (fun x => x.cid = oidB) = some c4comment ∧
      c4comment.author_name ≠ c5u.name) ∧
    delete_comment c4s oidB c5u =
      (.error ⟨403, "You can only delete your own comments"⟩, c4s) :=
  ⟨⟨by decide, by decide, by rfl, by decide⟩,
   (C5_forbidden_leaves_state_unchanged c4s c5u (by decide)).2.1 oidB c4comment
     (by decide) (by rfl) (by decide)⟩

/-! ## C6: duplicate email or name is rejected -/

/-- C6: create_user with an email or name already held by an existing user
fails with HTTP 400 and inserts nothing; update_user changing a user's email
or name to one held by a different user fails the same way and changes
nothing. -/
theorem C6_duplicate_user_rejected :
    (∀ (s : DBState) (d : UserCreate) (now : Int) (newId pwHash : String),
      ((∃ u ∈ s.users, u.email = d.email) ∨ (∃ u ∈ s.users, u.name = d.name)) →
      ∃ msg, create_user s d now newId pwHash = (.error ⟨400, msg⟩, s)) ∧
    (∀ (s : DBState) (user_id : String) (d : UserUpdate) (now : Int),
      ((∃ e, d.email = some e ∧ e ≠ "" ∧
          ∃ u ∈ s.users, u.email = e ∧ u.uid ≠ user_id) ∨
       (∃ nm, d.name = some nm ∧ nm ≠ "" ∧
          ∃ u ∈ s.users, u.name = nm ∧ u.uid ≠ user_id)) →
      ∃ msg, update_user s user_id d now = (.error ⟨400, msg⟩, s)) := by
  constructor
  · intro s d now newId pwHash hdup
    cases hfe : s.users.find? (fun u => u.email = d.email) with
    | some u => exact ⟨"Email already registered", by simp [create_user, hfe]⟩
    | none =>
      have hnone := List.find?_eq_none.mp hfe
      rcases hdup with ⟨u, hu, he⟩ | ⟨u, hu, hn⟩
      · exact absurd (by simpa using he) (by simpa using hnone u hu)
      · cases hfn : s.users.find? (fun v => v.name = d.name) with
        | some v =>
          exact ⟨"Name already taken. Please choose a different name.",
            by simp [create_user, hfe, hfn]⟩
        | none =>
          have hnone' := List.find?_eq_none.mp hfn
          exact absurd (by simpa using hn) (by simpa using hnone' u hu)
  · intro s user_id d now hdup
    by_cases hv : isValidObjectId user_id
    · by_cases hE : pyTruthy d.email = true ∧
        ∃ x ∈ s.users, some x.email = d.email ∧ ¬x.uid = user_id
      · exact ⟨"Email already registered", by simp [update_user, hv, hE.1, hE.2]⟩
      · have hN : pyTruthy d.name = true ∧
            ∃ x ∈ s.users, some x.name = d.name ∧ ¬x.uid = user_id := by
          rcases hdup with ⟨e, he, hene, u, hu, hue, huid⟩ | ⟨nm, hnm, hnme, u, hu, hun, huid⟩
          · exact absurd ⟨by simp [pyTruthy, he, hene],
              ⟨u, hu, by simp [he, hue], huid⟩⟩ hE
          · exact ⟨by simp [pyTruthy, hnm, hnme],
              ⟨u, hu, by simp [hnm, hun], huid⟩⟩
        exact ⟨"Name already taken. Please choose a different name.",
          by simp [update_user, hv, hE, hN.1, hN.2]⟩
    · exact ⟨"Invalid user ID format", by simp [update_user, hv]⟩

/-- Sample stored user for the C6 witness. -/
def c6bob : UserDoc :=
  { uid := oidC, email := "b@x.y", name := "bob", password_hash := "h",
    role := "normal", is_active := true, avatar := none, phone := none,
    telegram_id := none, last_seen := none, email_preferences := none,
    created_at := 0, updated_at := 0 }

/-- Sample database for the C6 witness. -/
def c6s : DBState := ⟨[], [], [c6bob], []⟩

/-- Sample duplicate-email create request. -/
def c6d : UserCreate := ⟨"b@x.y", "newbob", "pw", "normal", none, none⟩

/-- Witness for C6: creating a user with bob's email fails with 400 and the
users collection is unchanged. -/
theorem C6_witness :
    (∃ u ∈ c6s.users, u.email = c6d.email) ∧
    (∃ msg, create_user c6s c6d 0 oidD "h2" = (.error ⟨400, msg⟩, c6s)) :=
  ⟨by decide,
   C6_duplicate_user_rejected.1 c6s c6d 0 oidD "h2" (Or.inl (by decide))⟩

/-! ## C10: drafts are never listed and are hidden behind 404 -/

/-- C10: every post returned by get_all_posts has is_published = true (a
legacy post whose document lacks the flag never matches the query), and
get_post on an unpublished post requested by a caller who is neither admin
nor the author fails with HTTP 404. -/
theorem C10_published_only_and_draft_404 :
    (∀ (s : DBState) (cat : Option String) (rs : List PostResponse),
      get_all_posts s cat = .ok rs → ∀ r ∈ rs, r.is_published = true) ∧
    (∀ (s : DBState) (pid : String) (u : TokenData) (p : PostDoc),
      isValidObjectId pid = true →
      s.posts.find? (fun x => x.pid = pid) = some p →
      p.is_published.getD false = false →
      u.role ≠ "admin" → p.author_name ≠ u.name →
      get_post s pid u = .error ⟨404, "Post not found"⟩) := by
  constructor
  · intro s cat rs h r hr
    unfold get_all_posts at h
    split at h
    · split at h
      · rw [Except.ok.injEq] at h
        rw [← h] at hr
        simp at hr
      · split at h
        · simp at h
        · rw [Except.ok.injEq] at h
          rw [← h] at hr
          rcases List.mem_map.mp hr with ⟨p, hp, hmk⟩
          have hp' := (List.perm_insertionSort pubDescLe _).mem_iff.mp hp
          have := (List.mem_filter.mp hp').2
          simp only [Bool.and_eq_true, beq_iff_eq] at this
          rw [← hmk]
          simp [mkPostResponse, this.1]
    · rw [Except.ok.injEq] at h
      rw [← h] at hr
      rcases List.mem_map.mp hr with ⟨p, hp, hmk⟩
      have hp' := (List.perm_insertionSort pubDescLe _).mem_iff.mp hp
      have := (List.mem_filter.mp hp').2
      simp only [beq_iff_eq] at this
      rw [← hmk]
      simp [mkPostResponse, this]
  · intro s pid u p hv hf hpub hrole hname
    simp [get_post, hv, hf, hpub, hrole, hname]

/-- Sample draft post for the C10 witness. -/
def c10draft : PostDoc :=
  { pid := oidD, title := "d", content := "x", author_name := "bob",
    category_id := none, is_published := some false, published_at := none,
    pin_priority := 0, created_at := 0, updated_at := 0 }

/-- Sample database for the C10 witness. -/
def c10s : DBState := ⟨[c10draft], [], [], []⟩

/-- Witness for C10: carol (neither admin nor author) requests bob's draft
and receives 404. -/
theorem C10_witness :
    (isValidObjectId oidD = true ∧
      c10s.posts.find? (fun x => x.pid = oidD) = some c10draft ∧
      c10draft.is_published.getD false = false ∧
      c5u.role ≠ "admin" ∧ c10draft.author_name ≠ c5u.name) ∧
    get_post c10s oidD c5u = .error ⟨404, "Post not found"⟩ :=
  ⟨⟨by decide, by rfl, by rfl, by decide, by decide⟩,
   C10_published_only_and_draft_404.2 c10s oidD c5u c10draft (by decide) (by rfl)
     (by rfl) (by decide) (by decide)⟩

/-! ## C7: create-then-read returns the same fields -/

/-- find? skips a prefix on which the predicate fails everywhere. -/
theorem find?_append_none {α} (p : α → Bool) (l₁ l₂ : List α)
    (h : ∀ x ∈ l₁, ¬p x = true) : (l₁ ++ l₂).find? p = l₂.find? p := by
  induction l₁ with
  | nil => rfl
  | cons a l ih =>
    rw [List.cons_append, List.find?_cons_of_neg _ (h a (List.mem_cons_self a l)),
      ih (fun x hx => h x (List.mem_cons_of_mem a hx))]

/-- Looking up a freshly appended post by its id finds exactly it. -/
theorem find?_posts_append_singleton (ps : List PostDoc) (doc : PostDoc) (oid : String)
    (hfresh : ∀ p ∈ ps, p.pid ≠ oid) (hdoc : doc.pid = oid) :
    (ps ++ [doc]).find? (fun p => p.pid = oid) = some doc := by
  rw [find?_append_none _ ps [doc] (by intro x hx; simpa using hfresh x hx)]
  simp [List.find?, hdoc]

/-- insertPost with a fresh id appends the document and responds with it. -/
theorem insertPost_ok (s : DBState) (d : PostCreate) (now : Int) (newId : String)
    (hfresh : ∀ p ∈ s.posts, p.pid ≠ newId) :
    insertPost s d now newId =
      (.ok (mkPostResponse { s with posts := s.posts ++ [createdPostDoc d now newId] }
          (createdPostDoc d now newId)),
       { s with posts := s.posts ++ [createdPostDoc d now newId] }) := by
  have hf : (s.posts ++ [createdPostDoc d now newId]).find? (fun p => p.pid = newId) =
      some (createdPostDoc d now newId) :=
    find?_posts_append_singleton s.posts _ newId hfresh rfl
  simp only [insertPost]
  rw [hf]

/-- C7: after a successful create_post, get_post on the returned id, issued
by the post's author, by an admin, or by anyone when the post is published,
returns exactly the create response (hence the same title, content,
author_name, category_id and is_published).  `newId` fresh models the unique
`_id` index. -/
theorem C7_create_then_get :
    ∀ (s : DBState) (d : PostCreate) (now : Int) (newId : String) (u : TokenData)
      (resp : PostResponse) (s' : DBState),
      isValidObjectId newId = true →
      (∀ p ∈ s.posts, p.pid ≠ newId) →
      create_post s d now newId = (.ok resp, s') →
      (u.role = "admin" ∨ u.name = d.author_name ∨ d.is_published = true) →
      get_post s' resp.id u = .ok resp := by
  intro s d now newId u resp s' hv hfresh h hauth
  have hins := insertPost_ok s d now newId hfresh
  have hmain : s' = { s with posts := s.posts ++ [createdPostDoc d now newId] } ∧
      resp = mkPostResponse { s with posts := s.posts ++ [createdPostDoc d now newId] }
        (createdPostDoc d now newId) := by
    unfold create_post at h
    split at h
    · split at h
      · rw [hins, Prod.mk.injEq, Except.ok.injEq] at h
        exact ⟨h.2.symm, h.1.symm⟩
      · split at h
        · simp at h
        · split at h
          · simp at h
          · rw [hins, Prod.mk.injEq, Except.ok.injEq] at h
            exact ⟨h.2.symm, h.1.symm⟩
    · rw [hins, Prod.mk.injEq, Except.ok.injEq] at h
      exact ⟨h.2.symm, h.1.symm⟩
  obtain ⟨hs', hresp⟩ := hmain
  have hid : resp.id = newId := by rw [hresp]; rfl
  have hf : (s.posts ++ [createdPostDoc d now newId]).find? (fun p => p.pid = newId) =
      some (createdPostDoc d now newId) :=
    find?_posts_append_singleton s.posts _ newId hfresh rfl
  rw [hid, hresp, hs']
  unfold get_post
  rw [if_neg (by simp [hv])]
  rw [show ({ s with posts := s.posts ++ [createdPostDoc d now newId] } : DBState).posts =
    s.posts ++ [createdPostDoc d now newId] from rfl, hf]
  by_cases hp : d.is_published
  · simp [createdPostDoc, hp]
  · have hra : u.role = "admin" ∨ d.author_name = u.name := by
      rcases hauth with hr | hn | hpub
      · exact Or.inl hr
      · exact Or.inr hn.symm
      · exact absurd hpub hp
    rcases hra with hr | hn
    · simp [createdPostDoc, hp, hr]
    · simp [createdPostDoc, hp, hn]

/-- Sample create request for the C7 witness: ann saves a draft. -/
def c7d : PostCreate := ⟨"t", "c", "ann", none, false, 0⟩

/-- Sample caller for the C7 witness: ann herself. -/
def c7u : TokenData := ⟨"a@b.c", "u1", "ann", "normal", true⟩

/-- The database state after the C7 witness create. -/
def c7s' : DBState := ⟨[createdPostDoc c7d 0 oidA], [], [], []⟩

/-- The create response of the C7 witness. -/
def c7resp : PostResponse := mkPostResponse c7s' (createdPostDoc c7d 0 oidA)

/-- Witness for C7: ann creates a draft in an empty database and reads it
back unchanged. -/
theorem C7_witness :
    (isValidObjectId oidA = true ∧
      (∀ p ∈ (⟨[], [], [], []⟩ : DBState).posts, p.pid ≠ oidA) ∧
      create_post ⟨[], [], [], []⟩ c7d 0 oidA = (.ok c7resp, c7s') ∧
      c7u.name = c7d.author_name) ∧
    get_post c7s' c7resp.id c7u = .ok c7resp :=
  ⟨⟨by decide, by simp, by rfl, rfl⟩,
   C7_create_then_get ⟨[], [], [], []⟩ c7d 0 oidA c7u c7resp c7s' (by decide)
     (by simp) (by rfl) (Or.inr (Or.inl rfl))⟩

/-- getLast? of a cons, expressed through getLast? of the tail. -/
theorem getLast?_cons_eq {α} (a : α) (l : List α) :
    (a :: l).getLast? = some ((l.getLast?).getD a) := by
  induction l generalizing a with
  | nil => rfl
  | cons b l ih => simp [List.getLast?_cons_cons, ih]

/-- When the debounce decides to notify, it records the current time. -/
theorem chatNotifyStep_fst_true (st : Option Int) (t : Int)
    (h : (chatNotifyStep st t).1 = true) : (chatNotifyStep st t).2 = some t := by
  cases st with
  | none => rfl
  | some x =>
    by_cases hd : t - x > 2 * 3600
    · show (if decide (t - x > 2 * 3600) = true then ((true : Bool), some t)
        else (false, some x)).2 = some t
      rw [if_pos (decide_eq_true hd)]
    · have hstep : chatNotifyStep (some x) t = (false, some x) := by
        show (if decide (t - x > 2 * 3600) = true then ((true : Bool), some t)
          else (false, some x)) = (false, some x)
        rw [if_neg (by simpa using hd)]
      rw [hstep] at h
      exact absurd h (by simp)

/-- When the debounce decides not to notify, the register is unchanged. -/
theorem chatNotifyStep_fst_false (st : Option Int) (t : Int)
    (h : (chatNotifyStep st t).1 = false) : (chatNotifyStep st t).2 = st := by
  cases st with
  | none => exact absurd h (by simp [chatNotifyStep])
  | some x =>
    by_cases hd : t - x > 2 * 3600
    · have hstep : chatNotifyStep (some x) t = (true, some t) := by
        show (if decide (t - x > 2 * 3600) = true then ((true : Bool), some t)
          else (false, some x)) = (true, some t)
        rw [if_pos (decide_eq_true hd)]
      rw [hstep] at h
      exact absurd h (by simp)
    · show (if decide (t - x > 2 * 3600) = true then ((true : Bool), some t)
        else (false, some x)).2 = some x
      rw [if_neg (by simpa using hd)]

/-- chatNotifyRun over an appended event. -/
theorem chatNotifyRun_append (st : Option Int) (ts : List Int) (t : Int) :
    chatNotifyRun st (ts ++ [t]) =
      ((chatNotifyRun st ts).1 ++ [(chatNotifyStep (chatNotifyRun st ts).2 t).1],
       (chatNotifyStep (chatNotifyRun st ts).2 t).2) := by
  induction ts generalizing st with
  | nil => simp [chatNotifyRun]
  | cons a ts ih => simp [chatNotifyRun, ih]

/-- The debounce register always holds the timestamp of the most recent
notification-triggering message (or its initial value when none
triggered). -/
theorem chatNotifyRun_state_eq (st : Option Int) (ts : List Int) :
    (chatNotifyRun st ts).2 = specLastTriggerTime st ts := by
  induction ts generalizing st with
  | nil => simp [chatNotifyRun, specLastTriggerTime]
  | cons t ts ih =>
    show (chatNotifyRun (chatNotifyStep st t).2 ts).2 = specLastTriggerTime st (t :: ts)
    rw [ih]
    cases hp : (chatNotifyStep st t).1 with
    | true =>
      rw [chatNotifyStep_fst_true st t hp]
      show specLastTriggerTime (some t) ts = specLastTriggerTime st (t :: ts)
      unfold specLastTriggerTime
      rw [show (chatNotifyRun st (t :: ts)).1 =
            (chatNotifyStep st t).1 :: (chatNotifyRun (chatNotifyStep st t).2 ts).1 from rfl,
          hp, chatNotifyStep_fst_true st t hp, List.zip_cons_cons, List.filter_cons]
      rw [if_pos (show ((t, true).2 = true) from rfl)]
      rw [getLast?_cons_eq]
      cases hF : ((ts.zip (chatNotifyRun (some t) ts).1).filter
          (fun p => p.2)).getLast? with
      | none => rfl
      | some pr => rfl
    | false =>
      rw [chatNotifyStep_fst_false st t hp]
      show specLastTriggerTime st ts = specLastTriggerTime st (t :: ts)
      unfold specLastTriggerTime
      rw [show (chatNotifyRun st (t :: ts)).1 =
            (chatNotifyStep st t).1 :: (chatNotifyRun (chatNotifyStep st t).2 ts).1 from rfl,
          hp, chatNotifyStep_fst_false st t hp, List.zip_cons_cons, List.filter_cons]
      rw [if_neg (show ¬((t, false).2 = true) from by simp)]

/-- C1 (amended): a send_message event triggers an admin Telegram chat
notification exactly when either no notification has been triggered before,
or strictly more than 2 hours have elapsed since the last message that
triggered a notification — the debounce is on the last notification, not on
the last chat activity. -/
theorem C1_notify_iff_2h_since_last_notification :
    ∀ (ts : List Int) (t : Int),
      (chatNotifyRun none (ts ++ [t])).1 =
        (chatNotifyRun none ts).1 ++
          [match specLastTriggerTime none ts with
           | none => true
           | some x => decide (t - x > 2 * 3600)] := by
  intro ts t
  rw [chatNotifyRun_append]
  rw [chatNotifyRun_state_eq]
  cases h : specLastTriggerTime none ts with
  | none => rfl
  | some x =>
    by_cases hd : (7200 : Int) < t - x
    · simp [chatNotifyStep, hd]
    · simp [chatNotifyStep, hd]

/-! ## C2 infrastructure: reading the comment forest -/

mutual
/-- All comment documents occurring in a tree (the serialized content). -/
def treeComments : CommentTree → List CommentDoc
  | .node c rs => c :: forestComments rs
/-- All comment documents occurring in a forest. -/
def forestComments : List CommentTree → List CommentDoc
  | [] => []
  | t :: ts => treeComments t ++ forestComments ts
end

mutual
/-- All subtrees of a tree, the tree itself included. -/
def subtreesT : CommentTree → List CommentTree
  | .node c rs => .node c rs :: subtreesF rs
/-- All subtrees of the trees of a forest. -/
def subtreesF : List CommentTree → List CommentTree
  | [] => []
  | t :: ts => subtreesT t ++ subtreesF ts
end

/-- The comment at the root of a tree. -/
def rootC : CommentTree → CommentDoc
  | .node c _ => c

/-- The replies list of the root of a tree. -/
def repliesC : CommentTree → List CommentTree
  | .node _ rs => rs

/-- buildTree always puts the given comment at the root. -/
theorem rootC_buildTree (cs : List CommentDoc) (f : Nat) (c : CommentDoc) :
    rootC (buildTree cs f c) = c := by
  cases f <;> rfl

/-- A comment with no referencing children builds a leaf at any fuel. -/
theorem buildTree_leaf (cs : List CommentDoc) (f : Nat) (z : CommentDoc)
    (h : childrenOf cs z.cid = []) : buildTree cs f z = .node z [] := by
  cases f with
  | zero => rfl
  | succ g => simp only [buildTree, h, List.map_nil]

/-- forestComments distributes over list append. -/
theorem forestComments_append (a b : List CommentTree) :
    forestComments (a ++ b) = forestComments a ++ forestComments b := by
  induction a with
  | nil => rfl
  | cons t ts ih =>
    simp only [List.cons_append, forestComments, List.append_eq, ih, List.append_assoc]

/-- subtreesF distributes over list append. -/
theorem subtreesF_append (a b : List CommentTree) :
    subtreesF (a ++ b) = subtreesF a ++ subtreesF b := by
  induction a with
  | nil => rfl
  | cons t ts ih =>
    simp only [List.cons_append, subtreesF, List.append_eq, ih, List.append_assoc]

/-- Membership in the subtrees of a forest. -/
theorem mem_subtreesF (t : CommentTree) (ts : List CommentTree) :
    t ∈ subtreesF ts ↔ ∃ r ∈ ts, t ∈ subtreesT r := by
  induction ts with
  | nil => simp [subtreesF]
  | cons r ts ih =>
    simp only [subtreesF, List.mem_append, ih, List.mem_cons]
    constructor
    · rintro (h | ⟨r', hr', ht⟩)
      · exact ⟨r, Or.inl rfl, h⟩
      · exact ⟨r', Or.inr hr', ht⟩
    · rintro ⟨r', hr' | hr', ht⟩
      · exact Or.inl (hr' ▸ ht)
      · exact Or.inr ⟨r', hr', ht⟩

mutual
/-- The comments of a tree are the roots of its subtrees. -/
theorem treeComments_eq_subtrees (t : CommentTree) :
    treeComments t = (subtreesT t).map rootC := by
  cases t with
  | node c rs =>
    simp only [treeComments, subtreesT, List.map_cons, rootC,
      forestComments_eq_subtrees rs]
/-- The comments of a forest are the roots of its subtrees. -/
theorem forestComments_eq_subtrees (ts : List CommentTree) :
    forestComments ts = (subtreesF ts).map rootC := by
  cases ts with
  | nil => rfl
  | cons t ts =>
    simp only [forestComments, subtreesF, List.map_append,
      treeComments_eq_subtrees t, forestComments_eq_subtrees ts]
end

/-- The stored comment ids are pairwise distinct (MongoDB's `_id` index). -/
def NodupIds (cs : List CommentDoc) : Prop :=
  (cs.map CommentDoc.cid).Nodup

/-- Every referenced parent occurs strictly earlier in the list. -/
def ParentEarlier (cs : List CommentDoc) : Prop :=
  ∀ (j : Nat) (hj : j < cs.length) (p : String),
    (cs.get ⟨j, hj⟩).parent_id = some p →
    ∃ (i : Nat) (hij : i < j), (cs.get ⟨i, Nat.lt_trans hij hj⟩).cid = p

/-- With distinct ids, positions with equal cid coincide. -/
theorem nodupIds_cid_inj (cs : List CommentDoc) (hn : NodupIds cs)
    (i j : Nat) (hi : i < cs.length) (hj : j < cs.length)
    (h : (cs.get ⟨i, hi⟩).cid = (cs.get ⟨j, hj⟩).cid) : i = j := by
  have hinj := List.nodup_iff_injective_get.mp hn
  have hil : i < (cs.map CommentDoc.cid).length := by simpa using hi
  have hjl : j < (cs.map CommentDoc.cid).length := by simpa using hj
  have hg : (cs.map CommentDoc.cid).get ⟨i, hil⟩ = (cs.map CommentDoc.cid).get ⟨j, hjl⟩ := by
    simp only [List.get_eq_getElem, List.getElem_map]
    simpa [List.get_eq_getElem] using h
  have := hinj hg
  exact congrArg Fin.val this

/-- A comment whose parent is the comment at position i sits strictly after
position i. -/
theorem index_lt_of_parent (cs : List CommentDoc) (hn : NodupIds cs)
    (hpe : ParentEarlier cs) (i j : Nat) (hi : i < cs.length) (hj : j < cs.length)
    (hp : (cs.get ⟨j, hj⟩).parent_id = some ((cs.get ⟨i, hi⟩).cid)) : i < j := by
  obtain ⟨i', hij, hcid⟩ := hpe j hj _ hp
  have : i' = i := nodupIds_cid_inj cs hn i' i (Nat.lt_trans hij hj) hi hcid
  omega

/-- The children of the comment at position j all sit strictly after j. -/
theorem mem_childrenOf_index (cs : List CommentDoc) (hn : NodupIds cs)
    (hpe : ParentEarlier cs) (j : Nat) (hj : j < cs.length) :
    ∀ x ∈ childrenOf cs ((cs.get ⟨j, hj⟩).cid),
      ∃ (k : Nat) (hk : k < cs.length), cs.get ⟨k, hk⟩ = x ∧ j < k := by
  intro x hx
  have hmem : x ∈ cs := (List.mem_filter.mp hx).1
  have hpred := (List.mem_filter.mp hx).2
  simp only [Bool.and_eq_true, beq_iff_eq] at hpred
  obtain ⟨⟨k, hk⟩, hgk⟩ := List.mem_iff_get.mp hmem
  refine ⟨k, hk, hgk, ?_⟩
  exact index_lt_of_parent cs hn hpe j k hj hk (by rw [hgk]; exact hpred.2)

/-- With all parents earlier in the list, buildTree is independent of the
fuel once the fuel covers the longest possible descendant chain. -/
theorem buildTree_stable (cs : List CommentDoc) (hn : NodupIds cs)
    (hpe : ParentEarlier cs) :
    ∀ (n j : Nat) (hj : j < cs.length), cs.length - j ≤ n →
    ∀ f₁ f₂, n ≤ f₁ → n ≤ f₂ →
    buildTree cs f₁ (cs.get ⟨j, hj⟩) = buildTree cs f₂ (cs.get ⟨j, hj⟩) := by
  intro n
  induction n using Nat.strong_induction_on with
  | _ n ih =>
    intro j hj hrank f₁ f₂ h₁ h₂
    have hn1 : 1 ≤ n := by omega
    obtain ⟨a, rfl⟩ : ∃ a, f₁ = a + 1 := ⟨f₁ - 1, by omega⟩
    obtain ⟨b, rfl⟩ : ∃ b, f₂ = b + 1 := ⟨f₂ - 1, by omega⟩
    have hkids : ∀ x ∈ childrenOf cs ((cs.get ⟨j, hj⟩).cid),
        buildTree cs a x = buildTree cs b x := by
      intro x hx
      obtain ⟨k, hk, rfl, hjk⟩ := mem_childrenOf_index cs hn hpe j hj x hx
      exact ih (n - 1) (by omega) k hk (by omega) a b (by omega) (by omega)
    simp only [buildTree]
    exact congrArg (CommentTree.node _) (List.map_congr_left hkids)

/-- NodupIds restricts to a prefix and makes the appended id fresh. -/
theorem nodupIds_append (l : List CommentDoc) (z : CommentDoc)
    (h : NodupIds (l ++ [z])) : NodupIds l ∧ z.cid ∉ l.map CommentDoc.cid := by
  unfold NodupIds at *
  rw [List.map_append, List.nodup_append] at h
  exact ⟨h.1, fun hm => h.2.2 hm (by simp)⟩

/-- ParentEarlier restricts to a prefix. -/
theorem parentEarlier_append (l : List CommentDoc) (z : CommentDoc)
    (h : ParentEarlier (l ++ [z])) : ParentEarlier l := by
  intro j hj p hp
  have hj' : j < (l ++ [z]).length := by simp; omega
  have hgj : (l ++ [z]).get ⟨j, hj'⟩ = l.get ⟨j, hj⟩ := by
    simp only [List.get_eq_getElem]
    exact List.getElem_append_left hj
  obtain ⟨i, hij, hcid⟩ := h j hj' p (by rw [hgj]; exact hp)
  refine ⟨i, hij, ?_⟩
  have hi : i < l.length := by omega
  have hgi : (l ++ [z]).get ⟨i, Nat.lt_trans hij hj'⟩ = l.get ⟨i, hi⟩ := by
    simp only [List.get_eq_getElem]
    exact List.getElem_append_left hi
  rw [← hgi]
  exact hcid

/-- The parent referenced by the appended comment lives in the prefix. -/
theorem parent_of_append (l : List CommentDoc) (z : CommentDoc)
    (h : ParentEarlier (l ++ [z])) (p : String) (hp : z.parent_id = some p) :
    ∃ (i : Nat) (hi : i < l.length), (l.get ⟨i, hi⟩).cid = p := by
  have hlen : l.length < (l ++ [z]).length := by simp
  have hz : (l ++ [z]).get ⟨l.length, hlen⟩ = z := by
    simp [List.get_eq_getElem]
  obtain ⟨i, hij, hcid⟩ := h l.length hlen p (by rw [hz]; exact hp)
  refine ⟨i, hij, ?_⟩
  have hgi : (l ++ [z]).get ⟨i, Nat.lt_trans hij hlen⟩ = l.get ⟨i, hij⟩ := by
    simp only [List.get_eq_getElem]
    exact List.getElem_append_left hij
  rw [← hgi]
  exact hcid

/-- No stored comment references the appended comment as its parent. -/
theorem no_parent_is_append (l : List CommentDoc) (z : CommentDoc)
    (hn : NodupIds (l ++ [z])) (hpe : ParentEarlier (l ++ [z])) :
    ∀ c ∈ l ++ [z], c.parent_id ≠ some z.cid := by
  intro c hc hpar
  obtain ⟨⟨j, hj⟩, hgj⟩ := List.mem_iff_get.mp hc
  obtain ⟨i, hij, hcid⟩ := hpe j hj z.cid (by rw [hgj]; exact hpar)
  have hi : i < l.length := by
    have : j < l.length + 1 := by simpa using hj
    omega
  have hgi : (l ++ [z]).get ⟨i, Nat.lt_trans hij hj⟩ = l.get ⟨i, hi⟩ := by
    simp only [List.get_eq_getElem]
    exact List.getElem_append_left hi
  apply (nodupIds_append l z hn).2
  rw [← hcid, hgi]
  exact List.mem_map_of_mem CommentDoc.cid (List.get_mem l i hi)

/-- A comment nobody references has no children. -/
theorem childrenOf_eq_nil (cs : List CommentDoc) (z : String)
    (h : ∀ c ∈ cs, c.parent_id ≠ some z) : childrenOf cs z = [] := by
  apply List.filter_eq_nil_iff.mpr
  intro a ha
  simp only [Bool.and_eq_true, beq_iff_eq, not_and]
  intro _ hpa
  exact h a ha hpa

/-- childrenOf over an appended comment. -/
theorem childrenOf_append (l : List CommentDoc) (z : CommentDoc) (p : String) :
    childrenOf (l ++ [z]) p = childrenOf l p ++
      (if pyTruthy z.parent_id && z.parent_id == some p then [z] else []) := by
  unfold childrenOf
  rw [List.filter_append]
  congr 1
  cases hb : (pyTruthy z.parent_id && z.parent_id == some p) with
  | true => simp [List.filter, hb]
  | false => simp [List.filter, hb]

/-- Appending a comment that will be a root does not change any tree. -/
theorem buildTree_append_root (l : List CommentDoc) (z : CommentDoc)
    (hz : pyTruthy z.parent_id = false) :
    ∀ (f : Nat) (c : CommentDoc), buildTree (l ++ [z]) f c = buildTree l f c := by
  intro f
  induction f with
  | zero => intro c; rfl
  | succ g ih =>
    intro c
    simp only [buildTree]
    rw [childrenOf_append, hz]
    simp only [Bool.false_and, Bool.false_eq_true, if_false, List.append_nil]
    exact congrArg (CommentTree.node _) (List.map_congr_left (fun x _ => ih x))

/-- Appending a root comment appends a leaf to the forest. -/
theorem assembleForest_append_root (l : List CommentDoc) (z : CommentDoc)
    (hn : NodupIds (l ++ [z])) (hpe : ParentEarlier (l ++ [z]))
    (hz : pyTruthy z.parent_id = false) :
    assembleForest (l ++ [z]) = assembleForest l ++ [CommentTree.node z []] := by
  have hnl := (nodupIds_append l z hn).1
  have hpel := parentEarlier_append l z hpe
  unfold assembleForest
  rw [List.filter_append]
  rw [show List.filter (fun c => !(pyTruthy c.parent_id)) [z] = [z] by simp [hz]]
  rw [List.map_append]
  congr 1
  · apply List.map_congr_left
    intro r hr
    have hrl : r ∈ l := (List.mem_filter.mp hr).1
    obtain ⟨⟨j, hj⟩, rfl⟩ := List.mem_iff_get.mp hrl
    rw [buildTree_append_root l z hz]
    rw [show (l ++ [z]).length = l.length + 1 by simp]
    exact buildTree_stable l hnl hpel (l.length - j) j hj (le_refl _)
      (l.length + 1) l.length (by omega) (by omega)
  · rw [show List.map (buildTree (l ++ [z]) (l ++ [z]).length) [z] =
      [buildTree (l ++ [z]) (l ++ [z]).length z] from rfl]
    rw [buildTree_leaf _ _ z (childrenOf_eq_nil _ _ (no_parent_is_append l z hn hpe))]

/-- Summing a per-tree multiset relation over a mapped forest. -/
theorem forest_ms_aux (z : CommentDoc) (p : String) (F G : CommentDoc → CommentTree) :
    ∀ ks : List CommentDoc,
      (∀ x ∈ ks, (↑(treeComments (F x)) : Multiset CommentDoc) =
        ↑(treeComments (G x)) +
          Multiset.replicate ((treeComments (G x)).countP (fun y => y.cid = p)) z) →
      (↑(forestComments (ks.map F)) : Multiset CommentDoc) =
        ↑(forestComments (ks.map G)) +
          Multiset.replicate ((forestComments (ks.map G)).countP
            (fun y => y.cid = p)) z := by
  intro ks
  induction ks with
  | nil => intro _; simp [forestComments]
  | cons x ks ih =>
    intro h
    simp only [List.map_cons]
    rw [show forestComments (F x :: List.map F ks) =
      treeComments (F x) ++ forestComments (List.map F ks) from rfl]
    rw [show forestComments (G x :: List.map G ks) =
      treeComments (G x) ++ forestComments (List.map G ks) from rfl]
    rw [← Multiset.coe_add, ← Multiset.coe_add, h x (List.mem_cons_self x ks),
      ih (fun y hy => h y (List.mem_cons_of_mem x hy)),
      List.countP_append, Multiset.replicate_add]
    abel

/-- With distinct ids, a present id is counted exactly once. -/
theorem countP_cid_eq_one (cs : List CommentDoc) (p : String)
    (hn : NodupIds cs) (hp : p ∈ cs.map CommentDoc.cid) :
    cs.countP (fun x => x.cid = p) = 1 := by
  induction cs with
  | nil => simp at hp
  | cons c cs ih =>
    unfold NodupIds at hn
    rw [List.map_cons, List.nodup_cons] at hn
    rw [List.countP_cons]
    by_cases hc : c.cid = p
    · have h0 : cs.countP (fun x => x.cid = p) = 0 := by
        rw [List.countP_eq_zero]
        intro x hx hxp
        apply hn.1
        exact List.mem_map.mpr ⟨x, hx, by rw [of_decide_eq_true hxp, hc]⟩
      simp [h0, hc]
    · have hp' : p ∈ cs.map CommentDoc.cid := by
        rw [List.map_cons, List.mem_cons] at hp
        exact hp.resolve_left (fun he => hc he.symm)
      have := ih hn.2 hp'
      simp [this, hc]

/-- Appending a comment with a truthy parent reference adds exactly one copy
of it under every occurrence of its parent's id, multiset-wise. -/
theorem buildTree_append_child (l : List CommentDoc) (z : CommentDoc) (p : String)
    (hn : NodupIds (l ++ [z])) (hpe : ParentEarlier (l ++ [z]))
    (hzp : z.parent_id = some p) (hpt : pyTruthy z.parent_id = true) :
    ∀ (n j : Nat) (hj : j < l.length), l.length - j ≤ n →
    ∀ f, n + 1 ≤ f →
    (↑(treeComments (buildTree (l ++ [z]) f (l.get ⟨j, hj⟩))) : Multiset CommentDoc) =
      ↑(treeComments (buildTree l f (l.get ⟨j, hj⟩))) +
        Multiset.replicate
          ((treeComments (buildTree l f (l.get ⟨j, hj⟩))).countP
            (fun x => x.cid = p)) z := by
  have hnl := (nodupIds_append l z hn).1
  have hpel := parentEarlier_append l z hpe
  have hleafz : ∀ g : Nat, buildTree (l ++ [z]) g z = .node z [] := fun g =>
    buildTree_leaf _ g z (childrenOf_eq_nil _ _ (no_parent_is_append l z hn hpe))
  intro n
  induction n using Nat.strong_induction_on with
  | _ n ih =>
    intro j hj hrank f hf
    obtain ⟨g, rfl⟩ : ∃ g, f = g + 1 := ⟨f - 1, by omega⟩
    have hkids : ∀ x ∈ childrenOf l ((l.get ⟨j, hj⟩).cid),
        (↑(treeComments (buildTree (l ++ [z]) g x)) : Multiset CommentDoc) =
          ↑(treeComments (buildTree l g x)) +
            Multiset.replicate ((treeComments (buildTree l g x)).countP
              (fun y => y.cid = p)) z := by
      intro x hx
      obtain ⟨k, hk, rfl, hjk⟩ := mem_childrenOf_index l hnl hpel j hj x hx
      exact ih (n - 1) (by omega) k hk (by omega) g (by omega)
    have haux := forest_ms_aux z p (buildTree (l ++ [z]) g) (buildTree l g)
      (childrenOf l ((l.get ⟨j, hj⟩).cid)) hkids
    simp only [buildTree, treeComments]
    rw [childrenOf_append, List.map_append, forestComments_append]
    by_cases hpr : p = (l.get ⟨j, hj⟩).cid
    · have hcond : (pyTruthy z.parent_id &&
          z.parent_id == some ((l.get ⟨j, hj⟩).cid)) = true := by
        rw [hpt, hzp]
        simp [hpr]
      rw [hcond, if_pos rfl]
      rw [show List.map (buildTree (l ++ [z]) g) [z] =
        [buildTree (l ++ [z]) g z] from rfl, hleafz g]
      rw [show forestComments [CommentTree.node z []] = [z] from rfl]
      rw [List.countP_cons, if_pos (decide_eq_true hpr.symm)]
      rw [← Multiset.cons_coe, ← Multiset.cons_coe, ← Multiset.coe_add, haux,
        Multiset.coe_singleton, Multiset.replicate_add, Multiset.replicate_one]
      simp only [← Multiset.singleton_add]
      abel
    · have hcond : (pyTruthy z.parent_id &&
          z.parent_id == some ((l.get ⟨j, hj⟩).cid)) = false := by
        rw [hpt, hzp]
        simp only [List.get_eq_getElem] at hpr
        simp [hpr]
      rw [hcond, if_neg (by simp)]
      rw [show List.map (buildTree (l ++ [z]) g) ([] : List CommentDoc) = [] from rfl]
      rw [show forestComments ([] : List CommentTree) = [] from rfl, List.append_nil]
      rw [List.countP_cons, if_neg (by simpa using fun he => hpr he.symm)]
      rw [← Multiset.cons_coe, ← Multiset.cons_coe, haux, Nat.add_zero]
      simp only [← Multiset.singleton_add]
      abel

/-- The serialized forest is a permutation of the stored comments
(multiset form). -/
theorem forest_perm : ∀ cs : List CommentDoc, NodupIds cs → ParentEarlier cs →
    (↑(forestComments (assembleForest cs)) : Multiset CommentDoc) = ↑cs := by
  intro cs
  induction cs using List.reverseRecOn with
  | nil => intro _ _; rfl
  | append_singleton l z ih =>
    intro hn hpe
    have hnl := (nodupIds_append l z hn).1
    have hpel := parentEarlier_append l z hpe
    by_cases hz : pyTruthy z.parent_id = true
    · obtain ⟨p, hzp⟩ : ∃ p, z.parent_id = some p := by
        cases hq : z.parent_id with
        | none => rw [hq] at hz; simp [pyTruthy] at hz
        | some q => exact ⟨q, rfl⟩
      have hroots : (l ++ [z]).filter (fun c => !(pyTruthy c.parent_id)) =
          l.filter (fun c => !(pyTruthy c.parent_id)) := by
        rw [List.filter_append]
        simp [hz]
      unfold assembleForest
      rw [hroots, show (l ++ [z]).length = l.length + 1 by simp]
      have hstep : ∀ r ∈ l.filter (fun c => !(pyTruthy c.parent_id)),
          (↑(treeComments (buildTree (l ++ [z]) (l.length + 1) r)) :
              Multiset CommentDoc) =
            ↑(treeComments (buildTree l (l.length + 1) r)) +
              Multiset.replicate
                ((treeComments (buildTree l (l.length + 1) r)).countP
                  (fun y => y.cid = p)) z := by
        intro r hr
        have hrl : r ∈ l := (List.mem_filter.mp hr).1
        obtain ⟨⟨j, hj⟩, rfl⟩ := List.mem_iff_get.mp hrl
        exact buildTree_append_child l z p hn hpe hzp hz (l.length - j) j hj
          (le_refl _) (l.length + 1) (by omega)
      rw [forest_ms_aux z p (buildTree (l ++ [z]) (l.length + 1))
        (buildTree l (l.length + 1)) (l.filter (fun c => !(pyTruthy c.parent_id))) hstep]
      have hfuel : (l.filter (fun c => !(pyTruthy c.parent_id))).map
          (buildTree l (l.length + 1)) =
          (l.filter (fun c => !(pyTruthy c.parent_id))).map (buildTree l l.length) := by
        apply List.map_congr_left
        intro r hr
        have hrl : r ∈ l := (List.mem_filter.mp hr).1
        obtain ⟨⟨j, hj⟩, rfl⟩ := List.mem_iff_get.mp hrl
        exact buildTree_stable l hnl hpel (l.length - j) j hj (le_refl _) _ _
          (by omega) (by omega)
      rw [hfuel]
      have hperm : (forestComments (assembleForest l)).Perm l :=
        Multiset.coe_eq_coe.mp (ih hnl hpel)
      obtain ⟨i, hi, hcidi⟩ := parent_of_append l z hpe p hzp
      have hpmem : p ∈ l.map CommentDoc.cid := by
        rw [← hcidi]
        exact List.mem_map_of_mem CommentDoc.cid (List.get_mem l i hi)
      have hfold : (l.filter (fun c => !(pyTruthy c.parent_id))).map
          (buildTree l l.length) = assembleForest l := rfl
      have hcount : (forestComments (assembleForest l)).countP
          (fun y => y.cid = p) = 1 := by
        rw [hperm.countP_eq]
        exact countP_cid_eq_one l p hnl hpmem
      rw [hfold, hcount, ih hnl hpel, Multiset.replicate_one, ← Multiset.coe_add,
        Multiset.coe_singleton]
    · have hz' : pyTruthy z.parent_id = false := by
        cases hb : pyTruthy z.parent_id
        · rfl
        · exact absurd hb hz
      rw [assembleForest_append_root l z hn hpe hz', forestComments_append]
      rw [show forestComments [CommentTree.node z []] = [z] from rfl]
      rw [← Multiset.coe_add, ← Multiset.coe_add, ih hnl hpel]

/-- Every subtree of a built tree has as replies exactly the stored comments
that reference its root, in stored order. -/
theorem subtree_replies (cs : List CommentDoc) (hn : NodupIds cs)
    (hpe : ParentEarlier cs) :
    ∀ (n j : Nat) (hj : j < cs.length), cs.length - j ≤ n → ∀ f, n ≤ f →
    ∀ t ∈ subtreesT (buildTree cs f (cs.get ⟨j, hj⟩)),
      (repliesC t).map rootC = childrenOf cs (rootC t).cid := by
  intro n
  induction n using Nat.strong_induction_on with
  | _ n ih =>
    intro j hj hrank f hf t ht
    obtain ⟨g, rfl⟩ : ∃ g, f = g + 1 := ⟨f - 1, by omega⟩
    simp only [buildTree, subtreesT] at ht
    rcases List.mem_cons.mp ht with rfl | ht
    · simp only [repliesC, rootC, List.map_map]
      have : ∀ x ∈ childrenOf cs ((cs.get ⟨j, hj⟩).cid),
          (rootC ∘ buildTree cs g) x = x := fun x _ => rootC_buildTree cs g x
      rw [List.map_congr_left this]
      exact List.map_id' _
    · rw [mem_subtreesF] at ht
      obtain ⟨t', ht', hsub⟩ := ht
      obtain ⟨x, hx, rfl⟩ := List.mem_map.mp ht'
      obtain ⟨k, hk, rfl, hjk⟩ := mem_childrenOf_index cs hn hpe j hj x hx
      exact ih (n - 1) (by omega) k hk (by omega) g (by omega) t hsub

/-- Every subtree of the assembled forest has as replies exactly the stored
comments that reference its root. -/
theorem subtree_replies_forest (cs : List CommentDoc) (hn : NodupIds cs)
    (hpe : ParentEarlier cs) :
    ∀ t ∈ subtreesF (assembleForest cs),
      (repliesC t).map rootC = childrenOf cs (rootC t).cid := by
  intro t ht
  rw [mem_subtreesF] at ht
  obtain ⟨t', ht', hsub⟩ := ht
  obtain ⟨r, hr, rfl⟩ := List.mem_map.mp ht'
  have hrl : r ∈ cs := (List.mem_filter.mp hr).1
  obtain ⟨⟨j, hj⟩, rfl⟩ := List.mem_iff_get.mp hrl
  exact subtree_replies cs hn hpe (cs.length - j) j hj (le_refl _) cs.length
    (by omega) t hsub

/-- The roots of the assembled forest are exactly the comments with falsy
parent_id, in fetched order. -/
theorem roots_assembleForest (cs : List CommentDoc) :
    (assembleForest cs).map rootC = cs.filter (fun c => !(pyTruthy c.parent_id)) := by
  unfold assembleForest
  rw [List.map_map]
  have : ∀ x ∈ cs.filter (fun c => !(pyTruthy c.parent_id)),
      (rootC ∘ buildTree cs cs.length) x = x := fun x _ => rootC_buildTree cs cs.length x
  rw [List.map_congr_left this]
  exact List.map_id' _

/-- C2 (amended): for every post and every set of its stored comments with
pairwise-distinct non-empty ids in which each non-null parent_id references
another comment of the same post that was created strictly earlier (the
invariant create_comment maintains, and which rules out referential cycles),
get_comments_for_post assembles the flat list, taken in ascending created_at
order, into a nested forest whose roots are exactly the comments with no
parent_id, in which each comment appears exactly once, in which every node's
replies are exactly the comments referencing it (in fetched order), and in
which every comment with a parent_id appears in that parent's replies
list. -/
theorem C2_comment_forest :
    ∀ (s : DBState) (post_id : String),
      isValidObjectId post_id = true →
      NodupIds (fetchComments s post_id) →
      (∀ c ∈ fetchComments s post_id, c.cid ≠ "") →
      (∀ c ∈ fetchComments s post_id, ∀ p, c.parent_id = some p →
        ∃ c' ∈ fetchComments s post_id, c'.cid = p ∧ c'.created_at < c.created_at) →
      ∃ F, get_comments_for_post s post_id = .ok F ∧
        F.map rootC = (fetchComments s post_id).filter (fun c => c.parent_id = none) ∧
        (forestComments F).Perm (fetchComments s post_id) ∧
        (∀ t ∈ subtreesF F, (repliesC t).map rootC =
          childrenOf (fetchComments s post_id) (rootC t).cid) ∧
        (∀ c ∈ fetchComments s post_id, ∀ p, c.parent_id = some p →
          ∃ t ∈ subtreesF F, (rootC t).cid = p ∧ c ∈ (repliesC t).map rootC) := by
  intro s post_id hv hnd hne href
  set cs := fetchComments s post_id with hcs
  have hsorted : List.Sorted createdLe cs := by
    rw [hcs]
    exact List.sorted_insertionSort createdLe _
  have hpe : ParentEarlier cs := by
    intro j hj p hp
    obtain ⟨c', hc', hcid, hlt⟩ := href (cs.get ⟨j, hj⟩) (List.get_mem cs j hj) p hp
    obtain ⟨⟨i, hi⟩, hgi⟩ := List.mem_iff_get.mp hc'
    have hij : i < j := by
      rcases Nat.lt_trichotomy i j with h | h | h
      · exact h
      · exfalso
        subst h
        rw [← hgi] at hlt
        exact absurd hlt (lt_irrefl _)
      · exfalso
        have hrel := (List.pairwise_iff_get.mp hsorted) ⟨j, hj⟩ ⟨i, hi⟩
          (Fin.mk_lt_mk.mpr h)
        rw [hgi] at hrel
        exact absurd hlt (not_lt.mpr hrel)
    refine ⟨i, hij, ?_⟩
    rw [show cs.get ⟨i, Nat.lt_trans hij hj⟩ = cs.get ⟨i, hi⟩ from rfl, hgi]
    exact hcid
  refine ⟨assembleForest cs, ?_, ?_, ?_, ?_, ?_⟩
  · simp only [get_comments_for_post, hv, Bool.not_true, Bool.false_eq_true,
      if_false, ← hcs]
  · rw [roots_assembleForest]
    apply List.filter_congr
    intro c hc
    cases hcp : c.parent_id with
    | none => simp [pyTruthy]
    | some q =>
      obtain ⟨c', hc', hcid, _⟩ := href c hc q hcp
      have hq : q ≠ "" := by
        rw [← hcid]
        exact hne c' hc'
      simp [pyTruthy, hq]
  · exact Multiset.coe_eq_coe.mp (forest_perm cs hnd hpe)
  · exact subtree_replies_forest cs hnd hpe
  · intro c hc p hp
    obtain ⟨c', hc', hcid, _⟩ := href c hc p hp
    have hq : p ≠ "" := by
      rw [← hcid]
      exact hne c' hc'
    have hperm : (forestComments (assembleForest cs)).Perm cs :=
      Multiset.coe_eq_coe.mp (forest_perm cs hnd hpe)
    have hmem : c' ∈ forestComments (assembleForest cs) := hperm.mem_iff.mpr hc'
    rw [forestComments_eq_subtrees] at hmem
    obtain ⟨t, ht, hroot⟩ := List.mem_map.mp hmem
    refine ⟨t, ht, by rw [hroot]; exact hcid, ?_⟩
    rw [subtree_replies_forest cs hnd hpe t ht, hroot, hcid]
    apply List.mem_filter.mpr
    refine ⟨hc, ?_⟩
    simp [pyTruthy, hp, hq]

/-- First comment of a stored referential 2-cycle. -/
def cexCycleA : CommentDoc := ⟨oidB, oidA, "u1", "x", 0, some oidC, none⟩

/-- Second comment of a stored referential 2-cycle. -/
def cexCycleB : CommentDoc := ⟨oidC, oidA, "u1", "y", 1, some oidB, none⟩

/-- Database holding two comments of post oidA that reference each other. -/
def cexState : DBState := ⟨[], [cexCycleA, cexCycleB], [], []⟩

/-- C2 (counterexample to the claim as stated): in a comment set where each
non-null parent_id references another stored comment of the same post — two
comments referencing each other — get_comments_for_post returns the empty
forest: neither comment appears in it, refuting "each comment appears
exactly once in the forest" (and "every comment with a parent_id appears in
that parent's replies list").  Such a cycle cannot be created through
create_comment, which is what the amended claim's extra hypothesis
records. -/
theorem C2_counterexample :
    (∀ c ∈ cexState.comments, c.post_id = oidA) ∧
    (∀ c ∈ cexState.comments, ∀ p, c.parent_id = some p →
      ∃ c' ∈ cexState.comments, c'.cid = p ∧ c' ≠ c) ∧
    get_comments_for_post cexState oidA = .ok [] := by
  refine ⟨by decide, by decide, ?_⟩
  rfl

/-- Root comment for the C2 witness. -/
def c2root : CommentDoc := ⟨oidB, oidA, "ann", "hello", 0, none, none⟩

/-- Reply comment for the C2 witness. -/
def c2child : CommentDoc := ⟨oidC, oidA, "bob", "re", 1, some oidB, none⟩

/-- Database for the C2 witness. -/
def c2state : DBState := ⟨[], [c2root, c2child], [], []⟩

/-- Witness for C2 on a post with one root comment and one reply. -/
theorem C2_witness :
    (isValidObjectId oidA = true ∧
      NodupIds (fetchComments c2state oidA) ∧
      (∀ c ∈ fetchComments c2state oidA, c.cid ≠ "") ∧
      (∀ c ∈ fetchComments c2state oidA, ∀ p, c.parent_id = some p →
        ∃ c' ∈ fetchComments c2state oidA, c'.cid = p ∧
          c'.created_at < c.created_at)) ∧
    (∃ F, get_comments_for_post c2state oidA = .ok F ∧
      F.map rootC = (fetchComments c2state oidA).filter (fun c => c.parent_id = none) ∧
      (forestComments F).Perm (fetchComments c2state oidA) ∧
      (∀ t ∈ subtreesF F, (repliesC t).map rootC =
        childrenOf (fetchComments c2state oidA) (rootC t).cid) ∧
      (∀ c ∈ fetchComments c2state oidA, ∀ p, c.parent_id = some p →
        ∃ t ∈ subtreesF F, (rootC t).cid = p ∧ c ∈ (repliesC t).map rootC)) :=
  ⟨⟨by decide, by unfold NodupIds; decide, by decide, by decide⟩,
   C2_comment_forest c2state oidA (by decide) (by unfold NodupIds; decide)
     (by decide) (by decide)⟩

end Iskandar
